import Mathlib

/-!
Shallow embedding of the batched light-sensor sampling engine of
`godot-light_data_sensor_3d`.

Pixel colors are modelled over `ℚ` (the C++ code uses `float`/`double`;
rational arithmetic gives the exact real-number value of the same
expressions, which is what "within floating-point tolerance" statements
are about).

Embedded code:
* `sampleViewportColor` — `LightDataSensor3D::_sample_viewport_color`
  (light_data_sensor_3d.cpp): CPU mean of the square region of radius 4
  around the image center, skipping out-of-bounds positions.
* `kernelSimpleTest` — the `simple_test` Metal kernel compiled inline in
  `BatchMetalResourceManager::createComputePipeline`
  (platform/macos/batch_compute_manager_macos.mm): per-region loop over
  `(2r+1)²` offsets, normalized texture coordinates clamped to `[0,1]`,
  bilinear (`filter::linear`) sampling with `address::clamp_to_edge`,
  divisor = number of loop iterations.
* `BCMState` operations — `BatchComputeManager` (README-embedded
  batch_compute_manager.cpp): `add_sensor`, `remove_sensor`,
  `clear_all_sensors`, `set_sample_radius`, `get_sensor_result`,
  `_find_sensor_index`, `_resize_buffers_if_needed`, `process_sensors`.
* `managerProcessSensors` — `LightSensorManager::_process_sensors`
  (light_data_sensor_3d.h / light_sensor_manager part).
-/

namespace LDS

/-- RGB color triple (the kernels accumulate only the rgb channels). -/
structure RGB where
  r : ℚ
  g : ℚ
  b : ℚ
deriving DecidableEq, Repr

/-- RGBA color, as stored in `sensor_results` (godot `Color`). -/
structure RGBA where
  r : ℚ
  g : ℚ
  b : ℚ
  a : ℚ
deriving DecidableEq, Repr

/-- Componentwise sum of two RGB values (`acc += color.rgb`). -/
def RGB.add (c d : RGB) : RGB := ⟨c.r + d.r, c.g + d.g, c.b + d.b⟩

/-- Scalar multiple of an RGB value (`acc * inv`, `acc / float(n)`). -/
def RGB.smul (q : ℚ) (c : RGB) : RGB := ⟨q * c.r, q * c.g, q * c.b⟩

/-- The zero accumulator `float3(0.0)`. -/
def RGB.zero : RGB := ⟨0, 0, 0⟩

/-- Sum of a list of RGB samples, mirroring the accumulation loops. -/
def sumRGB (l : List RGB) : RGB := l.foldr RGB.add RGB.zero

/-- A source image: dimensions plus a pixel accessor (godot `Image`:
`get_width`, `get_height`, `get_pixel`). The accessor is total; the
embedded code only ever evaluates it at in-bounds or explicitly clamped
coordinates, mirroring the source. -/
structure Image where
  width : ℕ
  height : ℕ
  pix : ℤ → ℤ → RGB

/-- The list of loop offsets `-r, -r+1, …, r` of the sampling loops
(`for (int d = -radius; d <= radius; ++d)`); empty when `r < 0`. -/
def offsetsZ (r : ℤ) : List ℤ :=
  (List.range (2 * r + 1).toNat).map (fun (i : ℕ) => (i : ℤ) - r)

/-- Metal `clamp(x, lo, hi)`. -/
def clampQ (x lo hi : ℚ) : ℚ := max lo (min x hi)

/-- Texel fetch with `address::clamp_to_edge`: coordinates are clamped
into `[0, width-1] × [0, height-1]` before reading. -/
def texelClamped (img : Image) (i j : ℤ) : RGB :=
  img.pix (max 0 (min i ((img.width : ℤ) - 1))) (max 0 (min j ((img.height : ℤ) - 1)))

/-- Bilinear interpolation weights applied to the four nearest texels
(`filter::linear`). -/
def bilinearMix (fx fy : ℚ) (c00 c10 c01 c11 : RGB) : RGB :=
  RGB.add
    (RGB.add (RGB.smul ((1 - fx) * (1 - fy)) c00) (RGB.smul (fx * (1 - fy)) c10))
    (RGB.add (RGB.smul ((1 - fx) * fy) c01) (RGB.smul (fx * fy) c11))

/-- Metal `texture2d.sample` with a `coord::normalized, clamp_to_edge,
filter::linear` sampler: the normalized coordinate is mapped to texel
space with the standard `-1/2` offset, and the four neighbouring texels
(indices clamped to the edge) are mixed bilinearly. -/
def sampleLinearClampToEdge (img : Image) (u v : ℚ) : RGB :=
  let x : ℚ := u * (img.width : ℚ) - 1/2
  let y : ℚ := v * (img.height : ℚ) - 1/2
  let x0 : ℤ := ⌊x⌋
  let y0 : ℤ := ⌊y⌋
  let fx : ℚ := x - (x0 : ℚ)
  let fy : ℚ := y - (y0 : ℚ)
  bilinearMix fx fy
    (texelClamped img x0 y0) (texelClamped img (x0 + 1) y0)
    (texelClamped img x0 (y0 + 1)) (texelClamped img (x0 + 1) (y0 + 1))

/-- The `(2r+1)²` sample positions `center + (dx, dy)` visited by the
`simple_test` kernel's double loop, in loop order. -/
def kernelSamplePositions (cx cy : ℚ) (r : ℤ) : List (ℚ × ℚ) :=
  (offsetsZ r).flatMap (fun (dy : ℤ) =>
    (offsetsZ r).map (fun (dx : ℤ) => (cx + (dx : ℚ), cy + (dy : ℚ))))

/-- The `simple_test` batch Metal kernel, per sensor: red sentinel for a
negative center, otherwise the mean over all `(2r+1)²` loop positions of
the texture sampled at the position's normalized coordinate clamped to
`[0,1]`, with alpha fixed at `1.0`. The divisor `sample_count` counts
every loop iteration. -/
def kernelSimpleTest (img : Image) (cx cy : ℚ) (r : ℤ) : RGBA :=
  if cx < 0 ∨ cy < 0 then ⟨1, 0, 0, 1⟩
  else
    let samples := (kernelSamplePositions cx cy r).map (fun p =>
      sampleLinearClampToEdge img
        (clampQ (p.1 / (img.width : ℚ)) 0 1) (clampQ (p.2 / (img.height : ℚ)) 0 1))
    let n := samples.length
    let avg := if 0 < n then RGB.smul (1 / (n : ℚ)) (sumRGB samples) else RGB.zero
    ⟨avg.r, avg.g, avg.b, 1⟩

/-- The in-bounds positions visited by the CPU sampling loop of
`_sample_viewport_color`: rows with `y < 0 || y >= height` are skipped
(`continue`), then columns with `x < 0 || x >= width` are skipped. -/
def cpuSamplePoints (img : Image) (cx cy r : ℤ) : List (ℤ × ℤ) :=
  (offsetsZ r).flatMap (fun dy =>
    let y := cy + dy
    if y < 0 ∨ (img.height : ℤ) ≤ y then []
    else (offsetsZ r).filterMap (fun dx =>
      let x := cx + dx
      if x < 0 ∨ (img.width : ℤ) ≤ x then none else some (x, y)))

/-- The CPU mean over the in-bounds positions of a square region: sums
the pixels at `cpuSamplePoints` and divides by their number; `none` when
no position was in bounds (the code leaves `last_color` untouched). -/
def cpuRegionMean (img : Image) (cx cy r : ℤ) : Option RGBA :=
  let pts := cpuSamplePoints img cx cy r
  let n := pts.length
  if 0 < n then
    let acc := sumRGB (pts.map (fun p => img.pix p.1 p.2))
    some ⟨acc.r / (n : ℚ), acc.g / (n : ℚ), acc.b / (n : ℚ), 1⟩
  else none

/-- `LightDataSensor3D::_sample_viewport_color`: bails out on an empty
image, then averages the square of radius 4 around the integer image
center `(width/2, height/2)`. -/
def sampleViewportColor (img : Image) : Option RGBA :=
  if img.width = 0 ∨ img.height = 0 then none
  else cpuRegionMean img ((img.width / 2 : ℕ) : ℤ) ((img.height / 2 : ℕ) : ℤ) 4

/-- One sampling request, mirroring `struct SensorRegion`
(batch_compute_manager.h). -/
structure SensorRegion where
  center_x : ℚ
  center_y : ℚ
  radius : ℤ
  sensor_id : ℤ
deriving DecidableEq, Repr

/-- Default result color `Color(0, 0, 0, 1)` (opaque black). -/
def black : RGBA := ⟨0, 0, 0, 1⟩

/-- The mutable state of a `BatchComputeManager`: the `is_initialized`
flag, the parallel vectors `sensor_regions` / `sensor_results`, and the
configuration fields `max_sensors` / `sample_radius`. -/
structure BCMState where
  initialized : Bool
  regions : List SensorRegion
  results : List RGBA
  maxSensors : ℕ
  sampleRadius : ℤ
deriving DecidableEq, Repr

/-- `BatchComputeManager::_find_sensor_index`: linear scan returning the
first index whose `sensor_id` matches (`none` for the C++ `-1`). -/
def findSensorIndex (regions : List SensorRegion) (id : ℤ) : Option ℕ :=
  match regions with
  | [] => none
  | g :: gs => if g.sensor_id = id then some 0 else (findSensorIndex gs id).map (· + 1)

/-- `BatchComputeManager::_resize_buffers_if_needed`: when the region
count exceeds `max_sensors`, both vectors are truncated to `max_sensors`
and a warning is printed (the returned flag records the warning). -/
def resizeBuffersIfNeeded (regions : List SensorRegion) (results : List RGBA)
    (maxS : ℕ) : List SensorRegion × List RGBA × Bool :=
  if maxS < regions.length then (regions.take maxS, results.take maxS, true)
  else (regions, results, false)

/-- `BatchComputeManager::add_sensor`, also reporting whether the
truncation warning was printed: an existing id is updated in place
(results untouched); a new id appends a region plus a black result and
then runs `_resize_buffers_if_needed`. -/
def addSensorW (st : BCMState) (id : ℤ) (x y : ℚ) (radius : ℤ) : BCMState × Bool :=
  match findSensorIndex st.regions id with
  | some i => ({ st with regions := st.regions.set i ⟨x, y, radius, id⟩ }, false)
  | none =>
      let rg0 := st.regions ++ [⟨x, y, radius, id⟩]
      let rs0 := st.results ++ [black]
      let rrw := resizeBuffersIfNeeded rg0 rs0 st.maxSensors
      ({ st with regions := rrw.1, results := rrw.2.1 }, rrw.2.2)

/-- `BatchComputeManager::add_sensor` (state part). -/
def addSensor (st : BCMState) (id : ℤ) (x y : ℚ) (radius : ℤ) : BCMState :=
  (addSensorW st id x y radius).1

/-- `BatchComputeManager::remove_sensor`: erase the region and the
result at the index re-derived from the id; no-op when absent. -/
def removeSensor (st : BCMState) (id : ℤ) : BCMState :=
  match findSensorIndex st.regions id with
  | some i => { st with regions := st.regions.eraseIdx i, results := st.results.eraseIdx i }
  | none => st

/-- `BatchComputeManager::clear_all_sensors`. -/
def clearAllSensors (st : BCMState) : BCMState :=
  { st with regions := [], results := [] }

/-- `BatchComputeManager::set_sample_radius`: clamp the argument into
`[1, 16]`, store it, and overwrite every registered region's radius. -/
def setSampleRadius (st : BCMState) (radius : ℤ) : BCMState :=
  let r := max 1 (min radius 16)
  { st with sampleRadius := r, regions := st.regions.map (fun g => { g with radius := r }) }

/-- `BatchComputeManager::get_sensor_result`: re-derive the index from
the id at call time; return `sensor_results[index]` when the index is in
range, opaque black otherwise. -/
def getSensorResult (st : BCMState) (id : ℤ) : RGBA :=
  match findSensorIndex st.regions id with
  | some i => st.results.getD i black
  | none => black

/-- `BatchComputeManager::get_all_results`: copy of the results vector. -/
def getAllResults (st : BCMState) : List RGBA := st.results

/-- Environment of one processing cycle: which of the external/GPU steps
succeed, and what the compute kernel wrote into the output buffer. -/
structure CycleEnv where
  textureValid : Bool
  gpuAvailable : Bool
  frameOk : Bool
  buffersOk : Bool
  commandOk : Bool
  readbackOk : Bool
  gpuOutput : ℕ → RGBA

/-- Observable GPU side effects of one cycle. -/
structure CycleEffects where
  textureUploaded : Bool
  kernelDispatched : Bool
  commandCommitted : Bool
deriving DecidableEq, Repr

/-- No side effect yet. -/
def noEffects : CycleEffects := ⟨false, false, false⟩

/-- `BatchComputeManager::process_sensors`, returning the success flag,
the state after the cycle, and the observable effects. Stage order as in
the source: validity check, `_create_viewport_texture` (device + image,
then the unconditional pixel upload), `_update_sensor_regions_buffer`
(buffer existence), `_dispatch_compute_kernel` (pipeline and command
objects, then either an empty commit when no sensor is registered or a
kernel dispatch), `_read_results` (decode the output buffer into
`sensor_results`). Every failure returns `false` with the state intact. -/
def processSensors (st : BCMState) (env : CycleEnv) : Bool × BCMState × CycleEffects :=
  if !(st.initialized && env.textureValid) then (false, st, noEffects)
  else if !(env.gpuAvailable && env.frameOk) then (false, st, noEffects)
  else
    let effTex : CycleEffects := ⟨true, false, false⟩
    if !env.buffersOk then (false, st, effTex)
    else if !(env.gpuAvailable && env.commandOk) then (false, st, effTex)
    else if st.regions.isEmpty then
      (true, st, ⟨true, false, true⟩)
    else
      let effDispatch : CycleEffects := ⟨true, true, true⟩
      if !env.readbackOk then (false, st, effDispatch)
      else
        (true, { st with results := (List.range st.regions.length).map env.gpuOutput },
          effDispatch)

/-- `LightSensorManager::_process_sensors`: guarded by the manager's
initialization and viewport cache; runs the batch cycle only when
`use_gpu_acceleration && batch_compute_manager->is_available()`, emits
signals only on success, and does nothing at all — in particular no CPU
fallback — in every other branch (the source's `else {}` branches are
empty). The returned flag records whether signals were emitted. -/
def managerProcessSensors (mInit hasViewport useGpu : Bool) (st : BCMState)
    (env : CycleEnv) : BCMState × CycleEffects × Bool :=
  if !mInit then (st, noEffects, false)
  else if !hasViewport then (st, noEffects, false)
  else if useGpu && st.initialized then
    let r := processSensors st env
    (r.2.1, r.2.2, r.1)
  else (st, noEffects, false)

/-! ### Generic helper lemmas -/

theorem sumRGB_map_const {α : Type} (l : List α) (c : RGB) :
    sumRGB (l.map fun _ => c) = ⟨(l.length : ℚ) * c.r, (l.length : ℚ) * c.g, (l.length : ℚ) * c.b⟩ := by
  induction l with
  | nil => simp [sumRGB, RGB.zero]
  | cons x xs ih =>
      simp only [List.map_cons, sumRGB, List.foldr_cons] at ih ⊢
      rw [ih]
      simp only [RGB.add, List.length_cons, RGB.mk.injEq]
      refine ⟨?_, ?_, ?_⟩ <;> push_cast <;> ring

theorem length_offsetsZ (r : ℤ) : (offsetsZ r).length = (2 * r + 1).toNat := by
  rw [offsetsZ, List.length_map, List.length_range]

theorem mem_offsetsZ {d r : ℤ} : d ∈ offsetsZ r ↔ -r ≤ d ∧ d ≤ r := by
  rw [offsetsZ, List.mem_map]
  constructor
  · rintro ⟨i, hi, rfl⟩
    rw [List.mem_range] at hi
    omega
  · intro h
    refine ⟨(d + r).toNat, ?_, ?_⟩
    · rw [List.mem_range]; omega
    · omega

theorem nodup_offsetsZ (r : ℤ) : (offsetsZ r).Nodup := by
  rw [offsetsZ]
  refine List.Nodup.map ?_ (List.nodup_range _)
  intro i j hij
  dsimp only at hij
  omega

theorem sumNat_map_const {α : Type} (l : List α) (k : ℕ) :
    (l.map fun _ => k).sum = l.length * k := by
  induction l with
  | nil => simp
  | cons x xs ih => simp [ih, Nat.succ_mul, Nat.add_comm]

theorem length_kernelSamplePositions (cx cy : ℚ) (r : ℤ) :
    (kernelSamplePositions cx cy r).length = (2 * r + 1).toNat * (2 * r + 1).toNat := by
  rw [kernelSamplePositions, List.length_flatMap]
  have h : ((offsetsZ r).map (List.length ∘ fun (dy : ℤ) =>
      (offsetsZ r).map (fun (dx : ℤ) => (cx + (dx : ℚ), cy + (dy : ℚ))))).sum
      = ((offsetsZ r).map fun _ => (offsetsZ r).length).sum := by
    refine congrArg List.sum (List.map_congr_left ?_)
    intro dy _
    simp
  rw [h, sumNat_map_const, length_offsetsZ]

/-! ### Uniform-image lemmas (claim C1) -/

theorem texelClamped_const {img : Image} {C : RGB} (hpix : ∀ x y, img.pix x y = C)
    (i j : ℤ) : texelClamped img i j = C := by
  simp [texelClamped, hpix]

theorem bilinearMix_const (fx fy : ℚ) (C : RGB) : bilinearMix fx fy C C C C = C := by
  obtain ⟨cr, cg, cb⟩ := C
  simp only [bilinearMix, RGB.add, RGB.smul, RGB.mk.injEq]
  refine ⟨?_, ?_, ?_⟩ <;> ring

theorem sampleLinearClampToEdge_const {img : Image} {C : RGB}
    (hpix : ∀ x y, img.pix x y = C) (u v : ℚ) :
    sampleLinearClampToEdge img u v = C := by
  simp only [sampleLinearClampToEdge, texelClamped_const hpix]
  exact bilinearMix_const _ _ _

theorem kernelSimpleTest_uniform {img : Image} {C : RGB}
    (hpix : ∀ x y, img.pix x y = C) (cx cy : ℚ) (hcx : 0 ≤ cx) (hcy : 0 ≤ cy)
    (r : ℤ) (hr : 0 ≤ r) :
    kernelSimpleTest img cx cy r = ⟨C.r, C.g, C.b, 1⟩ := by
  have hneg : ¬(cx < 0 ∨ cy < 0) := by push_neg; exact ⟨hcx, hcy⟩
  have hmap : (kernelSamplePositions cx cy r).map (fun p =>
      sampleLinearClampToEdge img
        (clampQ (p.1 / (img.width : ℚ)) 0 1) (clampQ (p.2 / (img.height : ℚ)) 0 1))
      = (kernelSamplePositions cx cy r).map (fun _ => C) := by
    refine List.map_congr_left ?_
    intro p _
    exact sampleLinearClampToEdge_const hpix _ _
  have hpos : 0 < (kernelSamplePositions cx cy r).length := by
    rw [length_kernelSamplePositions]
    have h1 : 0 < (2 * r + 1).toNat := by omega
    positivity
  have hne : ((kernelSamplePositions cx cy r).length : ℚ) ≠ 0 :=
    Nat.cast_ne_zero.mpr hpos.ne'
  rw [kernelSimpleTest, if_neg hneg]
  simp only [hmap, sumRGB_map_const, List.length_map, hpos, if_true, RGB.smul,
    RGBA.mk.injEq]
  refine ⟨?_, ?_, ?_, trivial⟩
  all_goals
    field_simp

/-! ### Characterization of the CPU sampling loop (claims C1, C2) -/

theorem mem_ite_nil {α : Type} {c : Prop} [Decidable c] {l : List α} {a : α} :
    (a ∈ if c then ([] : List α) else l) ↔ ¬c ∧ a ∈ l := by
  split_ifs with h <;> simp [h]

theorem ite_none_some_eq {α : Type} {c : Prop} [Decidable c] {v a : α} :
    ((if c then none else some v) = some a) ↔ ¬c ∧ v = a := by
  split_ifs with h <;> simp [h]

theorem mem_cpuSamplePoints {img : Image} {cx cy r : ℤ} {p : ℤ × ℤ} :
    p ∈ cpuSamplePoints img cx cy r ↔
      cx - r ≤ p.1 ∧ p.1 ≤ cx + r ∧ 0 ≤ p.1 ∧ p.1 < (img.width : ℤ) ∧
      cy - r ≤ p.2 ∧ p.2 ≤ cy + r ∧ 0 ≤ p.2 ∧ p.2 < (img.height : ℤ) := by
  obtain ⟨px, py⟩ := p
  simp only [cpuSamplePoints, List.mem_flatMap, mem_ite_nil, List.mem_filterMap,
    ite_none_some_eq, mem_offsetsZ, Prod.mk.injEq]
  constructor
  · rintro ⟨dy, ⟨hdy1, hdy2⟩, hy, dx, ⟨hdx1, hdx2⟩, hx, hpx, hpy⟩
    constructor
    · omega
    · refine ⟨by omega, by omega, by omega, by omega, by omega, by omega, by omega⟩
  · rintro ⟨h1, h2, h3, h4, h5, h6, h7, h8⟩
    refine ⟨py - cy, ⟨by omega, by omega⟩, by omega, px - cx, ⟨by omega, by omega⟩,
      by omega, by omega, by omega⟩

theorem nodup_cpuSamplePoints (img : Image) (cx cy r : ℤ) :
    (cpuSamplePoints img cx cy r).Nodup := by
  rw [cpuSamplePoints, List.nodup_flatMap]
  constructor
  · intro dy _
    dsimp only
    split_ifs with hy
    · exact List.nodup_nil
    · refine List.Nodup.filterMap ?_ (nodup_offsetsZ r)
      intro a a' b hb hb'
      rw [Option.mem_def, ite_none_some_eq] at hb hb'
      have h1 : cx + a = b.1 := by rw [← hb.2]
      have h2 : cx + a' = b.1 := by rw [← hb'.2]
      omega
  · have hnd := nodup_offsetsZ r
    refine List.Pairwise.imp ?_ hnd
    intro dy dy' hne
    intro q hq hq'
    dsimp only at hq hq'
    rw [mem_ite_nil, List.mem_filterMap] at hq hq'
    obtain ⟨_, dx, _, hfx⟩ := hq
    obtain ⟨_, dx', _, hfx'⟩ := hq'
    rw [ite_none_some_eq] at hfx hfx'
    have h1 : cy + dy = q.2 := by rw [← hfx.2]
    have h2 : cy + dy' = q.2 := by rw [← hfx'.2]
    omega

theorem cpuRegionMean_uniform {img : Image} {C : RGB}
    (hpix : ∀ x y, img.pix x y = C) {cx cy r : ℤ}
    (hcx : 0 ≤ cx) (hcxw : cx < (img.width : ℤ))
    (hcy : 0 ≤ cy) (hcyh : cy < (img.height : ℤ)) (hr : 0 ≤ r) :
    cpuRegionMean img cx cy r = some ⟨C.r, C.g, C.b, 1⟩ := by
  have hmem : ((cx, cy) : ℤ × ℤ) ∈ cpuSamplePoints img cx cy r := by
    rw [mem_cpuSamplePoints]
    dsimp only
    refine ⟨by omega, by omega, by omega, by omega, by omega, by omega, by omega, by omega⟩
  have hpos : 0 < (cpuSamplePoints img cx cy r).length := List.length_pos_of_mem hmem
  have hne : ((cpuSamplePoints img cx cy r).length : ℚ) ≠ 0 :=
    Nat.cast_ne_zero.mpr hpos.ne'
  have hmap : (cpuSamplePoints img cx cy r).map (fun p => img.pix p.1 p.2)
      = (cpuSamplePoints img cx cy r).map (fun _ => C) :=
    List.map_congr_left (fun p _ => hpix _ _)
  rw [cpuRegionMean]
  simp only [hmap, sumRGB_map_const, hpos, if_true, Option.some.injEq, RGBA.mk.injEq]
  refine ⟨?_, ?_, ?_, trivial⟩
  all_goals
    field_simp

/-- Claim C1: for a source image whose pixels all have the same color C,
the `simple_test` kernel stores exactly `(C, 1.0)` for every region with
a nonnegative center and radius, and the CPU sampler
`_sample_viewport_color` computes exactly `(C, 1.0)` as well. -/
theorem C1_uniform_image_mean (img : Image) (C : RGB)
    (hpix : ∀ x y, img.pix x y = C) (hw : 0 < img.width) (hh : 0 < img.height) :
    (∀ cx cy : ℚ, 0 ≤ cx → 0 ≤ cy → ∀ r : ℤ, 0 ≤ r →
      kernelSimpleTest img cx cy r = ⟨C.r, C.g, C.b, 1⟩)
    ∧ sampleViewportColor img = some ⟨C.r, C.g, C.b, 1⟩ := by
  constructor
  · intro cx cy hcx hcy r hr
    exact kernelSimpleTest_uniform hpix cx cy hcx hcy r hr
  · rw [sampleViewportColor, if_neg (by omega)]
    refine cpuRegionMean_uniform hpix ?_ ?_ ?_ ?_ (by omega)
    · exact Int.ofNat_nonneg _
    · exact_mod_cast Nat.div_lt_self hw (by omega)
    · exact Int.ofNat_nonneg _
    · exact_mod_cast Nat.div_lt_self hh (by omega)

/-- The uniform 3×3 test image of color `(1/2, 1/3, 1/4)`. -/
def imgUniform : Image := ⟨3, 3, fun _ _ => ⟨1/2, 1/3, 1/4⟩⟩

/-- Witness for claim C1 at the concrete uniform image `imgUniform`,
center `(1, 2)` and radius 3. -/
theorem C1_uniform_image_mean_witness :
    kernelSimpleTest imgUniform 1 2 3 = ⟨1/2, 1/3, 1/4, 1⟩ ∧
    sampleViewportColor imgUniform = some ⟨1/2, 1/3, 1/4, 1⟩ := by
  have h := C1_uniform_image_mean imgUniform ⟨1/2, 1/3, 1/4⟩ (fun _ _ => rfl)
    (by decide) (by decide)
  exact ⟨h.1 1 2 (by decide) (by decide) 3 (by decide), h.2⟩

/-- A 2×2 test image: the left column `x = 0` is red, the right column
is black. -/
def img2 : Image :=
  { width := 2, height := 2, pix := fun x _ => if x = 0 then ⟨1, 0, 0⟩ else ⟨0, 0, 0⟩ }

theorem offsetsZ_one : offsetsZ 1 = [-1, 0, 1] := by decide

theorem kernelSamplePositions_zero_one : kernelSamplePositions 0 0 1 =
    [(-1, -1), (0, -1), (1, -1), (-1, 0), (0, 0), (1, 0), (-1, 1), (0, 1), (1, 1)] := by
  simp only [kernelSamplePositions, offsetsZ_one]
  norm_num

/-- Counterexample to claim C2: for the region centered at the corner
`(0,0)` of `img2` with radius 1, the mean over the in-bounds pixels with
an out-of-bounds-excluding divisor is `(1/2, 0, 0)` (4 in-bounds
positions, computed by the CPU loop), but the `simple_test` kernel
clamps all 9 loop positions to the image and divides by 9, producing
`(5/6, 0, 0)` — so on the GPU kernel path the divisor does not exclude
out-of-bounds positions and edge pixels are effectively re-counted. -/
theorem C2_clamping_counterexample :
    kernelSimpleTest img2 0 0 1 = ⟨5/6, 0, 0, 1⟩ ∧
    cpuRegionMean img2 0 0 1 = some ⟨1/2, 0, 0, 1⟩ ∧
    kernelSimpleTest img2 0 0 1 ≠ ⟨1/2, 0, 0, 1⟩ ∧
    (kernelSamplePositions 0 0 1).length = 9 ∧
    (cpuSamplePoints img2 0 0 1).length = 4 := by
  have hker : kernelSimpleTest img2 0 0 1 = ⟨5/6, 0, 0, 1⟩ := by
    rw [kernelSimpleTest, if_neg (by norm_num)]
    simp only [kernelSamplePositions_zero_one, List.map_cons, List.map_nil]
    norm_num [sampleLinearClampToEdge, texelClamped, bilinearMix, clampQ, img2,
      sumRGB, RGB.add, RGB.smul, RGB.zero]
  have hcpu : cpuRegionMean img2 0 0 1 = some ⟨1/2, 0, 0, 1⟩ := by
    have hpts : cpuSamplePoints img2 0 0 1 = [(0, 0), (1, 0), (0, 1), (1, 1)] := by decide
    rw [cpuRegionMean, hpts]
    norm_num [img2, sumRGB, RGB.add, RGB.zero]
  refine ⟨hker, hcpu, ?_, ?_, ?_⟩
  · rw [hker]
    intro h
    have := congrArg RGBA.r h
    norm_num at this
  · rw [kernelSamplePositions_zero_one]
    rfl
  · decide

/-- Claim C2 (amended): on the CPU path the sampled positions are
exactly the in-bounds positions of the square
`[cx-r, cx+r] × [cy-r, cy+r]`, each occurring exactly once (no
wraparound, no zero-padding, no double-counting), and the divisor is
their number; on the GPU kernel path the divisor counts all
`(2r+1)²` loop positions regardless of the image bounds (out-of-bounds
positions are clamped to the edge rather than excluded). -/
theorem C2_clamping_amended (img : Image) (cx cy r : ℤ) :
    (∀ p : ℤ × ℤ, p ∈ cpuSamplePoints img cx cy r ↔
      cx - r ≤ p.1 ∧ p.1 ≤ cx + r ∧ 0 ≤ p.1 ∧ p.1 < (img.width : ℤ) ∧
      cy - r ≤ p.2 ∧ p.2 ≤ cy + r ∧ 0 ≤ p.2 ∧ p.2 < (img.height : ℤ))
    ∧ (cpuSamplePoints img cx cy r).Nodup
    ∧ ∀ qx qy : ℚ, (kernelSamplePositions qx qy r).length
        = (2 * r + 1).toNat * (2 * r + 1).toNat :=
  ⟨fun _ => mem_cpuSamplePoints, nodup_cpuSamplePoints img cx cy r,
    fun qx qy => length_kernelSamplePositions qx qy r⟩

/-! ### Registry lemmas (claims C5, C6, C7, C8, C10) -/

theorem findSensorIndex_lt_length {regions : List SensorRegion} {id : ℤ} {i : ℕ}
    (h : findSensorIndex regions id = some i) : i < regions.length := by
  induction regions generalizing i with
  | nil => simp [findSensorIndex] at h
  | cons g gs ih =>
      simp only [findSensorIndex] at h
      split_ifs at h with hg
      · simp only [Option.some.injEq] at h
        simp [← h]
      · cases hf : findSensorIndex gs id with
        | none => rw [hf] at h; simp at h
        | some j =>
            rw [hf] at h
            simp only [Option.map_some', Option.some.injEq] at h
            have := ih hf
            simp only [List.length_cons]
            omega

theorem findSensorIndex_getElem {regions : List SensorRegion} {id : ℤ} {i : ℕ}
    (h : findSensorIndex regions id = some i) :
    ∃ g, regions[i]? = some g ∧ g.sensor_id = id := by
  induction regions generalizing i with
  | nil => simp [findSensorIndex] at h
  | cons g gs ih =>
      simp only [findSensorIndex] at h
      split_ifs at h with hg
      · simp only [Option.some.injEq] at h
        exact ⟨g, by simp [← h], hg⟩
      · cases hf : findSensorIndex gs id with
        | none => rw [hf] at h; simp at h
        | some j =>
            rw [hf] at h
            simp only [Option.map_some', Option.some.injEq] at h
            obtain ⟨g', hg', hid⟩ := ih hf
            exact ⟨g', by simp [← h, hg'], hid⟩

theorem findSensorIndex_set {regions : List SensorRegion} {id : ℤ} {i : ℕ}
    (h : findSensorIndex regions id = some i) (v : SensorRegion)
    (hv : v.sensor_id = id) :
    findSensorIndex (regions.set i v) id = some i := by
  induction regions generalizing i with
  | nil => simp [findSensorIndex] at h
  | cons g gs ih =>
      simp only [findSensorIndex] at h
      split_ifs at h with hg
      · simp only [Option.some.injEq] at h
        rw [← h]
        simp [findSensorIndex, hv]
      · cases hf : findSensorIndex gs id with
        | none => rw [hf] at h; simp at h
        | some j =>
            rw [hf] at h
            simp only [Option.map_some', Option.some.injEq] at h
            rw [← h, List.set_cons_succ]
            simp [findSensorIndex, hg, ih hf]

theorem set_getElem_self {α : Type} {l : List α} {i : ℕ} {v : α}
    (h : l[i]? = some v) : l.set i v = l := by
  induction l generalizing i with
  | nil => simp at h
  | cons a as ih =>
      cases i with
      | zero =>
          simp only [List.getElem?_cons_zero, Option.some.injEq] at h
          simp [h]
      | succ j =>
          simp only [List.getElem?_cons_succ] at h
          simp [ih h]

/-- The result lookup on explicit region/result lists: the body of
`get_sensor_result` after the index has been re-derived. -/
def lookupIn (regions : List SensorRegion) (results : List RGBA) (id : ℤ) : RGBA :=
  match findSensorIndex regions id with
  | some i => results.getD i black
  | none => black

theorem getSensorResult_eq_lookupIn (st : BCMState) (id : ℤ) :
    getSensorResult st id = lookupIn st.regions st.results id := rfl

theorem getD_succ_tail (rs : List RGBA) (j : ℕ) :
    rs.getD (j + 1) black = rs.tail.getD j black := by
  cases rs <;> simp

theorem lookupIn_cons_ne {g : SensorRegion} {B : ℤ} (hgB : ¬g.sensor_id = B)
    (gs : List SensorRegion) (rs : List RGBA) :
    lookupIn (g :: gs) rs B = lookupIn gs rs.tail B := by
  simp only [lookupIn, findSensorIndex, if_neg hgB]
  cases hf : findSensorIndex gs B with
  | none => simp
  | some j => simp [getD_succ_tail]

theorem lookupIn_cons_eq {g : SensorRegion} {B : ℤ} (hgB : g.sensor_id = B)
    (gs : List SensorRegion) (rs : List RGBA) :
    lookupIn (g :: gs) rs B = rs.getD 0 black := by
  simp [lookupIn, findSensorIndex, hgB]

theorem lookupIn_eraseIdx (regions : List SensorRegion) :
    ∀ (results : List RGBA) (A B : ℤ) (i : ℕ), A ≠ B →
      findSensorIndex regions A = some i →
      lookupIn (regions.eraseIdx i) (results.eraseIdx i) B
        = lookupIn regions results B := by
  induction regions with
  | nil => intro results A B i _ h; simp [findSensorIndex] at h
  | cons g gs ih =>
      intro results A B i hAB hfind
      simp only [findSensorIndex] at hfind
      split_ifs at hfind with hgA
      · simp only [Option.some.injEq] at hfind
        rw [← hfind, List.eraseIdx_cons_zero]
        have h1 : results.eraseIdx 0 = results.tail := by cases results <;> simp
        rw [h1, lookupIn_cons_ne (by rw [hgA]; exact fun he => hAB he) gs results]
      · cases hf : findSensorIndex gs A with
        | none => rw [hf] at hfind; simp at hfind
        | some i' =>
            rw [hf] at hfind
            simp only [Option.map_some', Option.some.injEq] at hfind
            rw [← hfind, List.eraseIdx_cons_succ]
            by_cases hgB : g.sensor_id = B
            · rw [lookupIn_cons_eq hgB, lookupIn_cons_eq hgB]
              cases results <;> simp
            · rw [lookupIn_cons_ne hgB, lookupIn_cons_ne hgB]
              have h2 : (results.eraseIdx (i' + 1)).tail = results.tail.eraseIdx i' := by
                cases results <;> simp
              rw [h2]
              exact ih results.tail A B i' hAB hf

theorem mem_of_getElem?_eq_some {α : Type} {l : List α} {i : ℕ} {a : α}
    (h : l[i]? = some a) : a ∈ l := by
  induction l generalizing i with
  | nil => simp at h
  | cons x xs ih =>
      cases i with
      | zero =>
          simp only [List.getElem?_cons_zero, Option.some.injEq] at h
          simp [h]
      | succ j =>
          simp only [List.getElem?_cons_succ] at h
          exact List.mem_cons_of_mem _ (ih h)

/-- Claim C5: `get_sensor_result` re-derives the list index from the id
at call time, so removing a different sensor `A` never changes the value
returned for a surviving sensor `B`; an unknown id yields opaque black;
and while every stored result is still the initial black (no cycle
completed yet) every lookup yields opaque black. -/
theorem C5_result_lookup_stable (st : BCMState) (A B : ℤ) (hAB : A ≠ B) :
    getSensorResult (removeSensor st A) B = getSensorResult st B
    ∧ (findSensorIndex st.regions B = none → getSensorResult st B = black)
    ∧ ((∀ c ∈ st.results, c = black) → getSensorResult st B = black) := by
  refine ⟨?_, ?_, ?_⟩
  · cases hf : findSensorIndex st.regions A with
    | none => simp [removeSensor, hf]
    | some i =>
        simp only [removeSensor, hf]
        rw [getSensorResult_eq_lookupIn, getSensorResult_eq_lookupIn]
        exact lookupIn_eraseIdx st.regions st.results A B i hAB hf
  · intro h
    simp [getSensorResult, h]
  · intro h
    rw [getSensorResult]
    cases hf : findSensorIndex st.regions B with
    | none => rfl
    | some j =>
        dsimp only
        rw [List.getD_eq_getElem?_getD]
        cases hc : st.results[j]? with
        | none => rfl
        | some c =>
            simp only [Option.getD_some]
            exact h c (mem_of_getElem?_eq_some hc)

/-- A two-sensor state with distinct stored results. -/
def stC5 : BCMState :=
  { initialized := true,
    regions := [⟨10, 10, 4, 1⟩, ⟨20, 20, 4, 2⟩],
    results := [⟨1, 0, 0, 1⟩, ⟨0, 1, 0, 1⟩],
    maxSensors := 10000, sampleRadius := 4 }

/-- Witness for claim C5: removing sensor 1 leaves sensor 2's result
unchanged (its correct value, not a misaligned neighbor's). -/
theorem C5_result_lookup_stable_witness :
    getSensorResult (removeSensor stC5 1) 2 = getSensorResult stC5 2
    ∧ getSensorResult stC5 2 = ⟨0, 1, 0, 1⟩ :=
  ⟨(C5_result_lookup_stable stC5 1 2 (by decide)).1, by decide⟩

/-- Claim C6: calling `add_sensor` with an already-registered id updates
in place — lengths unchanged, results untouched, the stored region is
exactly the one described by the arguments — and repeating the call is
the identity on the state (no duplicate entry is ever created). -/
theorem C6_upsert_idempotent (st : BCMState) (id : ℤ) (x y : ℚ) (r : ℤ) (i : ℕ)
    (h : findSensorIndex st.regions id = some i) :
    (addSensor st id x y r).regions.length = st.regions.length
    ∧ (addSensor st id x y r).results = st.results
    ∧ findSensorIndex (addSensor st id x y r).regions id = some i
    ∧ (addSensor st id x y r).regions[i]? = some ⟨x, y, r, id⟩
    ∧ addSensor (addSensor st id x y r) id x y r = addSensor st id x y r := by
  have hlen := findSensorIndex_lt_length h
  have hupd : addSensor st id x y r
      = { st with regions := st.regions.set i ⟨x, y, r, id⟩ } := by
    simp [addSensor, addSensorW, h]
  have hfind2 : findSensorIndex (st.regions.set i ⟨x, y, r, id⟩) id = some i :=
    findSensorIndex_set h _ rfl
  have hget : (st.regions.set i ⟨x, y, r, id⟩)[i]? = some ⟨x, y, r, id⟩ :=
    List.getElem?_set_self hlen
  refine ⟨?_, ?_, ?_, ?_, ?_⟩
  · rw [hupd, List.length_set]
  · rw [hupd]
  · rw [hupd]; exact hfind2
  · rw [hupd]; exact hget
  · rw [hupd]
    have hupd2 : addSensor { st with regions := st.regions.set i ⟨x, y, r, id⟩ } id x y r
        = { st with regions := (st.regions.set i ⟨x, y, r, id⟩).set i ⟨x, y, r, id⟩ } := by
      simp [addSensor, addSensorW, hfind2]
    rw [hupd2, set_getElem_self hget]

/-- A one-sensor state, sensor id 7. -/
def stC6 : BCMState :=
  { initialized := true, regions := [⟨5, 5, 4, 7⟩], results := [black],
    maxSensors := 10000, sampleRadius := 4 }

/-- Witness for claim C6 at the concrete state `stC6`. -/
theorem C6_upsert_idempotent_witness :
    (addSensor stC6 7 9 9 2).regions.length = 1
    ∧ addSensor (addSensor stC6 7 9 9 2) 7 9 9 2 = addSensor stC6 7 9 9 2 := by
  have h := C6_upsert_idempotent stC6 7 9 9 2 0 (by decide)
  exact ⟨h.1, h.2.2.2.2⟩

/-- Claim C10: an `add_sensor` call on an existing id modifies only that
sensor's region record — list lengths, every other region entry, and the
whole stored results list (including the updated sensor's own last
color) are unchanged. -/
theorem C10_update_only_target (st : BCMState) (id : ℤ) (x y : ℚ) (r : ℤ) (i : ℕ)
    (h : findSensorIndex st.regions id = some i) :
    (addSensor st id x y r).regions.length = st.regions.length
    ∧ (addSensor st id x y r).results = st.results
    ∧ (∀ j : ℕ, j ≠ i → (addSensor st id x y r).regions[j]? = st.regions[j]?)
    ∧ (addSensor st id x y r).regions[i]? = some ⟨x, y, r, id⟩ := by
  have hlen := findSensorIndex_lt_length h
  have hupd : addSensor st id x y r
      = { st with regions := st.regions.set i ⟨x, y, r, id⟩ } := by
    simp [addSensor, addSensorW, h]
  refine ⟨?_, ?_, ?_, ?_⟩
  · rw [hupd, List.length_set]
  · rw [hupd]
  · intro j hj
    rw [hupd]
    exact List.getElem?_set_ne (fun he => hj he.symm)
  · rw [hupd]
    exact List.getElem?_set_self hlen

/-- A two-sensor state for the C10 witness. -/
def stC10 : BCMState :=
  { initialized := true,
    regions := [⟨1, 1, 4, 1⟩, ⟨2, 2, 4, 2⟩],
    results := [⟨1, 0, 0, 1⟩, ⟨0, 1, 0, 1⟩],
    maxSensors := 10000, sampleRadius := 4 }

/-- Witness for claim C10: updating sensor 2 keeps the results list and
sensor 1's region entry intact. -/
theorem C10_update_only_target_witness :
    (addSensor stC10 2 8 8 3).results = stC10.results
    ∧ (addSensor stC10 2 8 8 3).regions[0]? = stC10.regions[0]? := by
  have h := C10_update_only_target stC10 2 8 8 3 1 (by decide)
  exact ⟨h.2.1, h.2.2.1 0 (by decide)⟩

/-- The default-constructed empty manager state. -/
def emptyBCM : BCMState :=
  { initialized := false, regions := [], results := [], maxSensors := 10000,
    sampleRadius := 4 }

/-- Counterexample to claim C7: `add_sensor` stores its radius argument
without clamping, so registering with radius 0 leaves a region whose
radius is outside `[1, 16]`. -/
theorem C7_radius_clamp_counterexample :
    (addSensor emptyBCM 1 0 0 0).regions.map (fun g => g.radius) = [0]
    ∧ ¬∀ g ∈ (addSensor emptyBCM 1 0 0 0).regions, 1 ≤ g.radius ∧ g.radius ≤ 16 := by
  decide

/-- Claim C7 (amended): radius clamping to `[1, 16]` happens only in
`set_sample_radius`, which clamps its argument and overwrites every
stored region's radius; `add_sensor` stores the caller's radius
unclamped, so the `[1, 16]` invariant can be broken by `add_sensor`. -/
theorem C7_radius_clamp_amended (st : BCMState) (rad : ℤ) (id : ℤ) (x y : ℚ)
    (hfree : findSensorIndex st.regions id = none)
    (hcap : st.regions.length < st.maxSensors) :
    (∀ g ∈ (setSampleRadius st rad).regions, 1 ≤ g.radius ∧ g.radius ≤ 16)
    ∧ (setSampleRadius st rad).sampleRadius = max 1 (min rad 16)
    ∧ (addSensor st id x y rad).regions[st.regions.length]? = some ⟨x, y, rad, id⟩ := by
  refine ⟨?_, rfl, ?_⟩
  · intro g hg
    simp only [setSampleRadius, List.mem_map] at hg
    obtain ⟨g', _, rfl⟩ := hg
    have h16 : 1 ≤ max 1 (min rad 16) ∧ max 1 (min rad 16) ≤ 16 := by omega
    exact h16
  · simp only [addSensor, addSensorW, hfree, resizeBuffersIfNeeded,
      List.length_append, List.length_cons, List.length_nil]
    rw [if_neg (by omega)]
    exact List.getElem?_concat_length st.regions _

/-- Witness for claim C7 (amended) at the empty state with radius 99. -/
theorem C7_radius_clamp_amended_witness :
    (∀ g ∈ (setSampleRadius emptyBCM 99).regions, 1 ≤ g.radius ∧ g.radius ≤ 16)
    ∧ (addSensor emptyBCM 1 0 0 99).regions[0]? = some ⟨0, 0, 99, 1⟩ := by
  have h := C7_radius_clamp_amended emptyBCM 99 1 0 0 (by decide) (by decide)
  exact ⟨h.1, h.2.2⟩

/-- A full state at `max_sensors = 2`. -/
def stC8 : BCMState :=
  { initialized := true,
    regions := [⟨0, 0, 4, 1⟩, ⟨0, 0, 4, 2⟩],
    results := [black, black],
    maxSensors := 2, sampleRadius := 4 }

/-- Counterexample to claim C8: with `max_sensors = 2`, registering a
third sensor grows no capacity — `_resize_buffers_if_needed` truncates
both lists back to 2 entries (with a printed warning, recorded by the
returned flag) and the newly registered id 3 is simply gone. -/
theorem C8_capacity_counterexample :
    (addSensor stC8 3 5 5 4).regions.length = 2
    ∧ findSensorIndex (addSensor stC8 3 5 5 4).regions 3 = none
    ∧ (addSensorW stC8 3 5 5 4).2 = true := by
  decide

/-- Claim C8 (amended): when a new registration would exceed
`max_sensors`, both lists are deterministically truncated to the first
`max_sensors` entries and the warning is printed; otherwise the new
region is appended without warning. The capacity bound itself is never
grown by the operation. -/
theorem C8_capacity_amended (st : BCMState) (id : ℤ) (x y : ℚ) (r : ℤ)
    (hfree : findSensorIndex st.regions id = none) :
    (st.regions.length + 1 ≤ st.maxSensors →
      (addSensorW st id x y r).1.regions = st.regions ++ [⟨x, y, r, id⟩]
      ∧ (addSensorW st id x y r).2 = false)
    ∧ (st.maxSensors < st.regions.length + 1 →
      (addSensorW st id x y r).1.regions
        = (st.regions ++ [(⟨x, y, r, id⟩ : SensorRegion)]).take st.maxSensors
      ∧ (addSensorW st id x y r).1.results
        = (st.results ++ [black]).take st.maxSensors
      ∧ (addSensorW st id x y r).2 = true)
    ∧ (addSensorW st id x y r).1.maxSensors = st.maxSensors := by
  have hlen1 : (st.regions ++ [(⟨x, y, r, id⟩ : SensorRegion)]).length
      = st.regions.length + 1 := by simp
  refine ⟨?_, ?_, ?_⟩
  · intro hle
    simp only [addSensorW, hfree, resizeBuffersIfNeeded]
    rw [if_neg (by rw [hlen1]; omega)]
    exact ⟨rfl, rfl⟩
  · intro hlt
    simp only [addSensorW, hfree, resizeBuffersIfNeeded]
    rw [if_pos (by rw [hlen1]; omega)]
    exact ⟨rfl, rfl, rfl⟩
  · simp only [addSensorW, hfree, resizeBuffersIfNeeded]

/-- Witness for claim C8 (amended): the third registration at
`max_sensors = 2` truncates and warns. -/
theorem C8_capacity_amended_witness :
    (addSensorW stC8 3 5 5 4).1.regions
      = (stC8.regions ++ [(⟨5, 5, 4, 3⟩ : SensorRegion)]).take 2
    ∧ (addSensorW stC8 3 5 5 4).2 = true := by
  have h := C8_capacity_amended stC8 3 5 5 4 (by decide)
  exact ⟨(h.2.1 (by decide)).1, (h.2.1 (by decide)).2.2⟩

/-! ### Processing-cycle lemmas (claims C3, C4, C9) -/

theorem processSensors_state_or_success (st : BCMState) (env : CycleEnv) :
    (processSensors st env).2.1 = st ∨ (processSensors st env).1 = true := by
  simp only [processSensors]
  split_ifs <;> simp

/-- Claim C4: a cycle that fails at any stage — frame acquisition,
texture binding, region upload, kernel dispatch or readback — reports a
false return and leaves the whole manager state, in particular the
stored per-sensor result list, exactly as it was. -/
theorem C4_failed_cycle_preserves_results (st : BCMState) (env : CycleEnv)
    (hfail : (processSensors st env).1 = false) :
    (processSensors st env).2.1 = st
    ∧ getAllResults (processSensors st env).2.1 = getAllResults st := by
  rcases processSensors_state_or_success st env with h | h
  · exact ⟨h, by rw [h]⟩
  · rw [h] at hfail
    exact absurd hfail (by simp)

/-- A cycle environment that fails only at the readback stage. -/
def envFailReadback : CycleEnv :=
  { textureValid := true, gpuAvailable := true, frameOk := true, buffersOk := true,
    commandOk := true, readbackOk := false, gpuOutput := fun _ => black }

/-- Witness for claim C4: a readback failure on a two-sensor state keeps
the stored results intact. -/
theorem C4_failed_cycle_preserves_results_witness :
    (processSensors stC5 envFailReadback).2.1 = stC5 :=
  (C4_failed_cycle_preserves_results stC5 envFailReadback (by decide)).1

/-- One-sensor initialized state. -/
def stC3 : BCMState :=
  { initialized := true, regions := [⟨0, 0, 4, 1⟩], results := [black],
    maxSensors := 10000, sampleRadius := 4 }

/-- Cycle environment where the frame is acquired but the dispatch stage
(command-buffer creation) fails. -/
def envC3 : CycleEnv :=
  { textureValid := true, gpuAvailable := true, frameOk := true, buffersOk := true,
    commandOk := false, readbackOk := true, gpuOutput := fun _ => black }

/-- Counterexample to claim C3: with a valid frame but a failing GPU
dispatch, the cycle does not complete successfully and no per-region
color is computed by any CPU fallback — `process_sensors` returns false,
the manager's state is unchanged and no signal is emitted (the source's
`else {}` branches are empty). -/
theorem C3_no_cpu_fallback_counterexample :
    (processSensors stC3 envC3).1 = false
    ∧ (managerProcessSensors true true true stC3 envC3).1 = stC3
    ∧ (managerProcessSensors true true true stC3 envC3).2.2 = false := by
  decide

/-- Claim C3 (amended): when the GPU backend is unavailable or the
dispatch stage fails, the batch cycle aborts: `process_sensors` returns
false with the state (hence the stored results) unchanged, and the
manager cycle stores nothing and emits no signals — there is no
per-region CPU fallback in the batch path. -/
theorem C3_no_cpu_fallback_amended (st : BCMState) (env : CycleEnv)
    (h : env.gpuAvailable = false ∨ env.commandOk = false) :
    (processSensors st env).1 = false
    ∧ (processSensors st env).2.1 = st
    ∧ (managerProcessSensors true true true st env).1 = st
    ∧ (managerProcessSensors true true true st env).2.2 = false := by
  have hps : (processSensors st env).1 = false ∧ (processSensors st env).2.1 = st := by
    simp only [processSensors]
    rcases h with h | h <;> rw [h] <;> split_ifs <;> simp_all
  refine ⟨hps.1, hps.2, ?_, ?_⟩
  all_goals
    simp only [managerProcessSensors]
    cases hi : st.initialized <;> simp [hi, hps.1, hps.2]

/-- Witness for claim C3 (amended) at the concrete state `stC3` and the
dispatch-failing environment `envC3`. -/
theorem C3_no_cpu_fallback_amended_witness :
    (processSensors stC3 envC3).2.1 = stC3
    ∧ (managerProcessSensors true true true stC3 envC3).2.2 = false := by
  have h := C3_no_cpu_fallback_amended stC3 envC3 (by decide)
  exact ⟨h.2.1, h.2.2.2⟩

/-- Initialized state with zero registered sensors. -/
def stC9 : BCMState :=
  { initialized := true, regions := [], results := [], maxSensors := 10000,
    sampleRadius := 4 }

/-- Fully functional cycle environment. -/
def envAllOk : CycleEnv :=
  { textureValid := true, gpuAvailable := true, frameOk := true, buffersOk := true,
    commandOk := true, readbackOk := true, gpuOutput := fun _ => black }

/-- Counterexample to claim C9: a cycle with zero registered sensors
does return success without dispatching the compute kernel, but it is
not free of GPU resource effects beyond a liveness check — the frame
texture is still uploaded to the GPU before the empty batch is noticed.
-/
theorem C9_empty_cycle_counterexample :
    (processSensors stC9 envAllOk).1 = true
    ∧ (processSensors stC9 envAllOk).2.2.kernelDispatched = false
    ∧ (processSensors stC9 envAllOk).2.2.textureUploaded = true := by
  decide

/-- Claim C9 (amended): with zero registered sensors and a live device,
the cycle returns success, leaves the state untouched with an empty
result sequence and dispatches no compute kernel — but it still uploads
the frame texture and commits an (empty) command buffer first. -/
theorem C9_empty_cycle_amended (st : BCMState) (env : CycleEnv)
    (hinit : st.initialized = true) (hreg : st.regions = [])
    (htex : env.textureValid = true) (hgpu : env.gpuAvailable = true)
    (hfr : env.frameOk = true) (hbuf : env.buffersOk = true)
    (hcmd : env.commandOk = true) :
    (processSensors st env).1 = true
    ∧ (processSensors st env).2.1 = st
    ∧ getAllResults (processSensors st env).2.1 = st.results
    ∧ (processSensors st env).2.2.kernelDispatched = false
    ∧ (processSensors st env).2.2.textureUploaded = true
    ∧ (processSensors st env).2.2.commandCommitted = true := by
  simp [processSensors, hinit, hreg, htex, hgpu, hfr, hbuf, hcmd, getAllResults]

/-- Witness for claim C9 (amended) at the concrete empty state `stC9`
and the all-functional environment `envAllOk`. -/
theorem C9_empty_cycle_amended_witness :
    (processSensors stC9 envAllOk).1 = true
    ∧ (processSensors stC9 envAllOk).2.2.commandCommitted = true := by
  have h := C9_empty_cycle_amended stC9 envAllOk rfl rfl rfl rfl rfl rfl rfl
  exact ⟨h.1, h.2.2.2.2.2⟩

end LDS
